import Mathlib

/-!
Shallow embedding of `src/reader.py` (and the logging shim it uses) from the
co-with-gnns-example repository.

Python strings are modelled as lists of characters; `str.split(sep)` with a
one-character separator is `List.splitOn`, which keeps empty segments exactly
as Python does.  `int()` conversion is modelled by `pyInt` below.  A
`networkx.Graph` is reduced to the two observables the spec talks about: its
node set and its (undirected, simple) edge set; an undirected edge is stored
as the pair of its endpoints sorted ascendingly, so duplicate and reversed
insertions collapse and self-loops are kept.  Logging calls have no effect on
the parse result and are dropped; statements a Python `ValueError` would
abort are modelled with `Except`.
-/

/-- A Python string, modelled as its list of characters. -/
abbrev PyStr := List Char

/-- Characters stripped by Python `int()` around a decimal literal
(ASCII whitespace). -/
def isPySpace (c : Char) : Bool :=
  c = ' ' || c = '\t' || c = '\n' || c = '\r' || c = '\x0b' || c = '\x0c'

/-- Remaining digits of a Python decimal literal after the first digit:
digits, with single underscores allowed between digits.  `acc` is the value
of the digits already read. -/
def pyDigits (acc : Nat) : List Char → Option Nat
  | [] => some acc
  | c :: cs =>
    if c.isDigit then pyDigits (10 * acc + (c.toNat - 48)) cs
    else if c = '_' then
      match cs with
      | [] => none
      | d :: cs' =>
        if d.isDigit then pyDigits (10 * acc + (d.toNat - 48)) cs' else none
    else none

/-- The digit part of a Python decimal literal: nonempty, starts with a
digit. -/
def pyDigitPart : List Char → Option Nat
  | [] => none
  | c :: cs => if c.isDigit then pyDigits (c.toNat - 48) cs else none

/-- Python `int(s)` on a base-10 string argument: strip surrounding
whitespace, then an optional sign followed by a digit run (underscores
allowed between digits); anything else raises, modelled as `none`. -/
def pyInt (s : PyStr) : Option Int :=
  match ((s.dropWhile isPySpace).reverse.dropWhile isPySpace).reverse with
  | '+' :: rest => (pyDigitPart rest).map (fun n => (n : Int))
  | '-' :: rest => (pyDigitPart rest).map (fun n => -(n : Int))
  | rest => (pyDigitPart rest).map (fun n => (n : Int))

/-- The observable state of a `networkx.Graph`: the node set and the set of
undirected edges.  An edge is stored with its endpoints sorted, so the pair
`{u, v}` has one canonical representative. -/
structure Graph where
  nodes : Finset Int
  edges : Finset (Int × Int)

instance : DecidableEq Graph := fun g h =>
  decidable_of_iff (g.nodes = h.nodes ∧ g.edges = h.edges)
    (by cases g; cases h; simp)

instance {E A : Type} [DecidableEq E] [DecidableEq A] : DecidableEq (Except E A) :=
  fun a b =>
  match a, b with
  | .ok x, .ok y => decidable_of_iff (x = y) (by simp)
  | .error x, .error y => decidable_of_iff (x = y) (by simp)
  | .ok _, .error _ => isFalse (by simp)
  | .error _, .ok _ => isFalse (by simp)

/-- `nx.Graph()`: the empty graph. -/
def Graph.empty : Graph := ⟨∅, ∅⟩

/-- Canonical representative of the unordered pair `{u, v}`. -/
def normPair (u v : Int) : Int × Int := if u ≤ v then (u, v) else (v, u)

/-- `g.add_edge(u, v)`: inserts both endpoints into the node set and the
undirected edge `{u, v}` into the edge set.  Re-adding an existing edge (in
either orientation) changes nothing; `u = v` inserts a self-loop. -/
def Graph.add_edge (g : Graph) (u v : Int) : Graph :=
  ⟨insert v (insert u g.nodes), insert (normPair u v) g.edges⟩

/-- Loop body of `convert_data_into_graph` for `i == 0`:
`num_nodes, num_edges, _ = line.split(" ")`.  The three tokens are only
interpolated into a log message; unpacking anything but exactly three
tokens raises a `ValueError`. -/
def headerStep (line : PyStr) : Except String (PyStr × PyStr × PyStr) :=
  match line.splitOn ' ' with
  | [num_nodes, num_edges, t] => .ok (num_nodes, num_edges, t)
  | _ => .error "ValueError: unpacking header line"

/-- Loop body of `convert_data_into_graph` for `i > 0`:
`u, v, w = line.split(" "); g.add_edge(int(u)-1, int(v)-1)`.  The weight
token `w` is bound by the unpacking but never converted or stored. -/
def edgeStep (g : Graph) (line : PyStr) : Except String Graph :=
  match line.splitOn ' ' with
  | [u, v, _w] =>
    match pyInt u, pyInt v with
    | some a, some b => .ok (g.add_edge (a - 1) (b - 1))
    | _, _ => .error "ValueError: invalid literal for int"
  | _ => .error "ValueError: unpacking edge line"

/-- The loop over the edge lines, threading the graph; a raised
`ValueError` aborts the whole call. -/
def edgesLoop (g : Graph) : List PyStr → Except String Graph
  | [] => .ok g
  | line :: rest =>
    match edgeStep g line with
    | .ok g' => edgesLoop g' rest
    | .error e => .error e

/-- `convert_data_into_graph(data)` from `src/reader.py`: split `data` on
newlines, iterate over every segment except the last, treating the first as
the (log-only) header and each further one as an edge record. -/
def convert_data_into_graph (data : PyStr) : Except String Graph :=
  match (data.splitOn '\n').dropLast with
  | [] => .ok Graph.empty
  | header :: rest =>
    match headerStep header with
    | .ok _ => edgesLoop Graph.empty rest
    | .error e => .error e

/-- The response to the single `requests.get(url)` call issued by
`read_data_from_url`, reduced to the two fields the function reads. -/
structure Response where
  status_code : Int
  text : PyStr

/-- `read_data_from_url` from `src/reader.py`, as a function of the response
to its single GET: on status 200 it returns `resp.text`, on any other
status it falls off the end of the function, i.e. returns Python's `None`. -/
def read_data_from_url (resp : Response) : Option PyStr :=
  if resp.status_code = 200 then some resp.text else none

/-! Spec-side derived views of the input, used to state the claims. -/

/-- The edge lines the parser iterates over: every newline segment except
the last, minus the leading header line. -/
def edgeLines (data : PyStr) : List PyStr :=
  ((data.splitOn '\n').dropLast).tail

/-- The header line the parser iterates over, when one exists. -/
def headerLine (data : PyStr) : Option PyStr :=
  ((data.splitOn '\n').dropLast).head?

/-- The 0-indexed endpoint pair an edge line describes: its three
space-separated tokens with the first two converted by `pyInt` and shifted
down by one, `none` when the line is malformed. -/
def lineEndpoints (line : PyStr) : Option (Int × Int) :=
  match line.splitOn ' ' with
  | [u, v, _w] =>
    match pyInt u, pyInt v with
    | some a, some b => some (a - 1, b - 1)
    | _, _ => none
  | _ => none

/-- The node set a list of edge lines describes: every endpoint of every
well-formed line. -/
def specNodes (ls : List PyStr) : Finset Int :=
  (ls.filterMap lineEndpoints).foldr (fun p s => insert p.1 (insert p.2 s)) ∅

/-- The edge set a list of edge lines describes: one canonical pair per
unordered endpoint pair seen. -/
def specEdges (ls : List PyStr) : Finset (Int × Int) :=
  ((ls.filterMap lineEndpoints).map (fun p => normPair p.1 p.2)).toFinset

/-- The scenario input as the spec writes it, with a doubled trailing
newline: splitting it on newlines yields two empty final segments, of which
the parser drops only one. -/
def gExampleData : PyStr := "3 2 0\n1 2 5\n2 3 7\n\n".toList

/-- The scenario input with a single trailing newline, so that the segment
list ends in exactly one empty artifact. -/
def gExampleFixed : PyStr := "3 2 0\n1 2 5\n2 3 7\n".toList

/-! Helper lemmas about the loop bodies. -/

theorem edgeStep_ok_endpoints {g g' : Graph} {line : PyStr}
    (h : edgeStep g line = .ok g') :
    ∃ p, lineEndpoints line = some p ∧ g' = g.add_edge p.1 p.2 := by
  unfold edgeStep at h
  unfold lineEndpoints
  split at h
  next u v w heq =>
    split at h
    next a b hu hv =>
      exact ⟨(a - 1, b - 1), rfl, (Except.ok.injEq _ _).mp h.symm⟩
    next => exact absurd h (by simp)
  next => exact absurd h (by simp)

theorem headerStep_ok_of_three {line : PyStr}
    (h : (line.splitOn ' ').length = 3) :
    ∃ t, headerStep line = .ok t := by
  obtain ⟨a, b, c, habc⟩ := List.length_eq_three.mp h
  exact ⟨(a, b, c), by unfold headerStep; rw [habc]⟩

theorem headerStep_error_of_not_three {line : PyStr}
    (h : (line.splitOn ' ').length ≠ 3) :
    ∃ e, headerStep line = .error e := by
  unfold headerStep
  split
  next heq => exact absurd (by rw [heq]; rfl) h
  next => exact ⟨_, rfl⟩

theorem edgesLoop_ok_sets :
    ∀ (ls : List PyStr) (g g' : Graph), edgesLoop g ls = .ok g' →
      g'.nodes = g.nodes ∪ specNodes ls ∧ g'.edges = g.edges ∪ specEdges ls := by
  intro ls
  induction ls with
  | nil =>
    intro g g' h
    unfold edgesLoop at h
    cases h
    exact ⟨by simp [specNodes], by simp [specEdges]⟩
  | cons line rest ih =>
    intro g g' h
    unfold edgesLoop at h
    cases he : edgeStep g line with
    | error e => rw [he] at h; exact absurd h (by simp)
    | ok g1 =>
      rw [he] at h
      obtain ⟨p, hp, hg1⟩ := edgeStep_ok_endpoints he
      obtain ⟨hn, hed⟩ := ih g1 g' h
      subst hg1
      refine ⟨?_, ?_⟩
      · rw [hn]
        unfold specNodes
        rw [List.filterMap_cons_some hp]
        simp only [List.foldr_cons, Graph.add_edge]
        ext x
        simp only [Finset.mem_union, Finset.mem_insert]
        tauto
      · rw [hed]
        unfold specEdges
        rw [List.filterMap_cons_some hp]
        simp only [List.map_cons, List.toFinset_cons, Graph.add_edge]
        ext q
        simp only [Finset.mem_union, Finset.mem_insert]
        tauto

theorem edgesLoop_ok_isSome :
    ∀ (ls : List PyStr) (g g' : Graph), edgesLoop g ls = .ok g' →
      ∀ l ∈ ls, (lineEndpoints l).isSome := by
  intro ls
  induction ls with
  | nil => intro g g' _ l hl; exact absurd hl (by simp)
  | cons line rest ih =>
    intro g g' h l hl
    unfold edgesLoop at h
    cases he : edgeStep g line with
    | error e => rw [he] at h; exact absurd h (by simp)
    | ok g1 =>
      rw [he] at h
      rcases List.mem_cons.mp hl with rfl | hmem
      · obtain ⟨p, hp, _⟩ := edgeStep_ok_endpoints he
        rw [hp]; rfl
      · exact ih g1 g' h l hmem

theorem edgesLoop_error_of_malformed :
    ∀ (ls : List PyStr) (g : Graph), (∃ l ∈ ls, lineEndpoints l = none) →
      ∃ e, edgesLoop g ls = .error e := by
  intro ls
  induction ls with
  | nil => intro g h; simp at h
  | cons line rest ih =>
    intro g h
    unfold edgesLoop
    cases he : edgeStep g line with
    | error e => exact ⟨e, rfl⟩
    | ok g1 =>
      obtain ⟨p, hp, _⟩ := edgeStep_ok_endpoints he
      rcases h with ⟨l, hl, hnone⟩
      rcases List.mem_cons.mp hl with rfl | hmem
      · rw [hp] at hnone; cases hnone
      · exact ih g1 ⟨l, hmem, hnone⟩

theorem filterMap_length_of_isSome {α β : Type} {f : α → Option β} :
    ∀ ls : List α, (∀ l ∈ ls, (f l).isSome) →
      (ls.filterMap f).length = ls.length := by
  intro ls
  induction ls with
  | nil => intro _; rfl
  | cons a rest ih =>
    intro h
    obtain ⟨b, hb⟩ := Option.isSome_iff_exists.mp (h a (by simp))
    rw [List.filterMap_cons_some hb, List.length_cons, List.length_cons,
      ih (fun l hl => h l (by simp [hl]))]

theorem splitOn_eq_single_of_not_mem {data : PyStr} (h : '\n' ∉ data) :
    data.splitOn '\n' = [data] := by
  unfold List.splitOn
  refine List.splitOnP_eq_single _ _ ?_
  intro x hx
  simp only [beq_iff_eq]
  rintro rfl
  exact h hx

theorem convert_eq_nil {data : PyStr}
    (h : (data.splitOn '\n').dropLast = []) :
    convert_data_into_graph data = .ok Graph.empty := by
  unfold convert_data_into_graph
  rw [h]

theorem convert_congr {d1 d2 : PyStr}
    (h : (d1.splitOn '\n').dropLast = (d2.splitOn '\n').dropLast) :
    convert_data_into_graph d1 = convert_data_into_graph d2 := by
  unfold convert_data_into_graph
  rw [h]

theorem convert_eq_cons {data hd : PyStr} {rest : List PyStr}
    (h : (data.splitOn '\n').dropLast = hd :: rest) :
    convert_data_into_graph data =
      match headerStep hd with
      | .ok _ => edgesLoop Graph.empty rest
      | .error e => .error e := by
  unfold convert_data_into_graph
  rw [h]

theorem convert_ok_sets {data : PyStr} {g : Graph}
    (h : convert_data_into_graph data = .ok g) :
    g.nodes = specNodes (edgeLines data) ∧
      g.edges = specEdges (edgeLines data) := by
  unfold edgeLines
  cases hsplit : (data.splitOn '\n').dropLast with
  | nil =>
    rw [convert_eq_nil hsplit] at h
    cases h
    exact ⟨by simp [specNodes, Graph.empty], by simp [specEdges, Graph.empty]⟩
  | cons hd rest =>
    rw [convert_eq_cons hsplit] at h
    cases hh : headerStep hd with
    | error e => rw [hh] at h; exact absurd h (by simp)
    | ok t =>
      rw [hh] at h
      obtain ⟨hn, he⟩ := edgesLoop_ok_sets rest Graph.empty g h
      constructor
      · rw [List.tail_cons, hn]; simp [Graph.empty]
      · rw [List.tail_cons, he]; simp [Graph.empty]

theorem convert_ok_isSome {data : PyStr} {g : Graph}
    (h : convert_data_into_graph data = .ok g) :
    ∀ l ∈ edgeLines data, (lineEndpoints l).isSome := by
  unfold edgeLines
  cases hsplit : (data.splitOn '\n').dropLast with
  | nil => intro l hl; simp at hl
  | cons hd rest =>
    rw [convert_eq_cons hsplit] at h
    cases hh : headerStep hd with
    | error e => rw [hh] at h; exact absurd h (by simp)
    | ok t =>
      rw [hh] at h
      intro l hl
      rw [List.tail_cons] at hl
      exact edgesLoop_ok_isSome rest Graph.empty g h l hl

/-! The claims. -/

/-- C1: whenever `convert_data_into_graph` returns a graph, its node set is
exactly the set of 0-indexed parsed endpoints of the edge lines, and its
edge set contains exactly one undirected edge per unique unordered endpoint
pair seen, with duplicate edge lines collapsing and self-loops kept. -/
theorem convert_graph_matches_edge_lines (data : PyStr) (g : Graph)
    (h : convert_data_into_graph data = .ok g) :
    g.nodes = specNodes (edgeLines data) ∧
      g.edges = specEdges (edgeLines data) :=
  convert_ok_sets h

theorem convert_graph_matches_edge_lines_witness :
    (⟨{0, 1, 2}, {(0, 1), (1, 2)}⟩ : Graph).nodes =
        specNodes (edgeLines gExampleFixed) ∧
      (⟨{0, 1, 2}, {(0, 1), (1, 2)}⟩ : Graph).edges =
        specEdges (edgeLines gExampleFixed) :=
  convert_graph_matches_edge_lines gExampleFixed _ (by decide)

/-- C2 counterexample: on the spec's literal scenario input, which ends in
a doubled newline, splitting leaves two empty final segments; the parser
drops only one and then fails to unpack the remaining empty line into
three tokens, raising a `ValueError` instead of returning a graph. -/
theorem convert_scenario_double_newline_raises :
    convert_data_into_graph gExampleData =
      .error "ValueError: unpacking edge line" := by
  decide

/-- C2 (amended): on the scenario input with a single trailing newline,
`convert_data_into_graph` reads the header tokens as ("3", "2", "0") and
returns the graph with node set {0, 1, 2} and edge set {(0,1), (1,2)}. -/
theorem convert_scenario_graph :
    headerLine gExampleFixed = some "3 2 0".toList ∧
    headerStep "3 2 0".toList = .ok ("3".toList, "2".toList, "0".toList) ∧
    convert_data_into_graph gExampleFixed =
      .ok ⟨{0, 1, 2}, {(0, 1), (1, 2)}⟩ := by
  decide

/-- C3: the parser's result depends only on the segments before the last
one: joining the same earlier segments with any two newline-free final
segments, of arbitrary content, yields identical results. -/
theorem convert_ignores_last_segment (segs : List PyStr)
    (last1 last2 : PyStr) (hsegs : ∀ l ∈ segs, '\n' ∉ l)
    (h1 : '\n' ∉ last1) (h2 : '\n' ∉ last2) :
    convert_data_into_graph (List.intercalate ['\n'] (segs ++ [last1])) =
      convert_data_into_graph (List.intercalate ['\n'] (segs ++ [last2])) := by
  have key : ∀ last : PyStr, '\n' ∉ last →
      (List.intercalate ['\n'] (segs ++ [last])).splitOn '\n' =
        segs ++ [last] := by
    intro last hlast
    refine List.splitOn_intercalate (segs ++ [last]) '\n' ?_ (by simp)
    intro l hl
    rcases List.mem_append.mp hl with hmem | hmem
    · exact hsegs l hmem
    · rw [List.mem_singleton.mp hmem]; exact hlast
  apply convert_congr
  rw [key last1 h1, key last2 h2, List.dropLast_concat, List.dropLast_concat]

theorem convert_ignores_last_segment_witness :
    convert_data_into_graph (List.intercalate ['\n']
        (["3 2 0".toList, "1 2 5".toList] ++ ["2 3 GARBAGE".toList])) =
      convert_data_into_graph (List.intercalate ['\n']
        (["3 2 0".toList, "1 2 5".toList] ++ [[]])) :=
  convert_ignores_last_segment ["3 2 0".toList, "1 2 5".toList] _ _
    (by decide) (by decide) (by decide)

/-- C4: given the response to its single GET, `read_data_from_url` returns
the response body as text when the status code is 200, and `None` for every
other status code, raising no exception either way. -/
theorem read_data_from_url_status (resp : Response) :
    (resp.status_code = 200 → read_data_from_url resp = some resp.text) ∧
      (resp.status_code ≠ 200 → read_data_from_url resp = none) := by
  unfold read_data_from_url
  constructor
  · intro h; rw [if_pos h]
  · intro h; rw [if_neg h]

theorem read_data_from_url_status_witness :
    read_data_from_url ⟨200, "G".toList⟩ = some "G".toList ∧
      read_data_from_url ⟨404, "G".toList⟩ = none :=
  ⟨(read_data_from_url_status ⟨200, "G".toList⟩).1 rfl,
    (read_data_from_url_status ⟨404, "G".toList⟩).2 (by decide)⟩

/-- C5: any malformed processed line — a processed line whose single-space
split is not exactly three tokens, or an edge line whose first or second
token `int()` rejects — makes `convert_data_into_graph` raise a fatal
error instead of returning a (partial) graph. -/
theorem convert_malformed_line_fatal (data hd : PyStr)
    (rest : List PyStr)
    (hsplit : (data.splitOn '\n').dropLast = hd :: rest)
    (hmal : (hd.splitOn ' ').length ≠ 3 ∨
      ∃ l ∈ rest, lineEndpoints l = none) :
    ∃ e, convert_data_into_graph data = .error e := by
  rw [convert_eq_cons hsplit]
  rcases hmal with hhd | hedge
  · obtain ⟨e, he⟩ := headerStep_error_of_not_three hhd
    rw [he]
    exact ⟨e, rfl⟩
  · cases hh : headerStep hd with
    | error e => exact ⟨e, rfl⟩
    | ok t => exact edgesLoop_error_of_malformed rest Graph.empty hedge

theorem convert_malformed_line_fatal_witness :
    (∃ e, convert_data_into_graph "3 2 0\n1 x 5\n".toList = .error e) ∧
      (∃ e, convert_data_into_graph "3 2\n1 2 5\n".toList = .error e) :=
  ⟨convert_malformed_line_fatal _ "3 2 0".toList ["1 x 5".toList]
      (by decide) (Or.inr ⟨"1 x 5".toList, by decide, by decide⟩),
    convert_malformed_line_fatal _ "3 2".toList ["1 2 5".toList]
      (by decide) (Or.inl (by decide))⟩

/-- C6: the header token values influence only logging, never the parse
result: two inputs whose segment lists agree on everything after the first
line, and whose first lines both split into exactly three tokens, parse to
identical results. -/
theorem convert_header_noninterference (d1 d2 hd1 hd2 : PyStr)
    (rest : List PyStr)
    (e1 : (d1.splitOn '\n').dropLast = hd1 :: rest)
    (e2 : (d2.splitOn '\n').dropLast = hd2 :: rest)
    (l1 : (hd1.splitOn ' ').length = 3)
    (l2 : (hd2.splitOn ' ').length = 3) :
    convert_data_into_graph d1 = convert_data_into_graph d2 := by
  obtain ⟨t1, ht1⟩ := headerStep_ok_of_three l1
  obtain ⟨t2, ht2⟩ := headerStep_ok_of_three l2
  rw [convert_eq_cons e1, convert_eq_cons e2, ht1, ht2]

theorem convert_header_noninterference_witness :
    convert_data_into_graph "9 9 9\n1 2 5\n".toList =
      convert_data_into_graph "3 2 0\n1 2 5\n".toList :=
  convert_header_noninterference _ _ "9 9 9".toList "3 2 0".toList
    ["1 2 5".toList] (by decide) (by decide) (by decide) (by decide)

/-- The C7 counterexample input: two distinct edge lines that name the same
unordered endpoint pair in opposite orders. -/
def reversedPairData : PyStr := "3 2 0\n1 2 5\n2 1 7\n".toList

/-- C7 counterexample: `reversedPairData` has two edge lines that are not
duplicates of each other as lines and describe no self-loop, yet the parsed
graph has one edge, not two — the two lines name the same unordered pair in
opposite orders, so equality fails although no duplicate edge line and no
self-loop is present. -/
theorem edge_count_equality_fails_on_reversed_pair :
    edgeLines reversedPairData = ["1 2 5".toList, "2 1 7".toList] ∧
      (edgeLines reversedPairData).Nodup ∧
      lineEndpoints "1 2 5".toList = some (0, 1) ∧
      lineEndpoints "2 1 7".toList = some (1, 0) ∧
      convert_data_into_graph reversedPairData = .ok ⟨{0, 1}, {(0, 1)}⟩ ∧
      (⟨{0, 1}, {(0, 1)}⟩ : Graph).edges.card = 1 ∧
      (edgeLines reversedPairData).length = 2 := by
  decide

/-- C7 (amended): whenever `convert_data_into_graph` returns a graph, the
number of distinct edges is at most the number of edge lines processed,
with equality whenever no two edge lines describe the same unordered
endpoint pair and no self-loops are present. -/
theorem convert_edge_count_le_lines (data : PyStr) (g : Graph)
    (h : convert_data_into_graph data = .ok g) :
    g.edges.card ≤ (edgeLines data).length ∧
      (((((edgeLines data).filterMap lineEndpoints).map
            (fun p => normPair p.1 p.2)).Nodup ∧
          ∀ p ∈ (edgeLines data).filterMap lineEndpoints, p.1 ≠ p.2) →
        g.edges.card = (edgeLines data).length) := by
  obtain ⟨-, he⟩ := convert_ok_sets h
  have hlen : ((edgeLines data).filterMap lineEndpoints).length =
      (edgeLines data).length :=
    filterMap_length_of_isSome _ (convert_ok_isSome h)
  constructor
  · rw [he]
    unfold specEdges
    refine le_trans (List.toFinset_card_le _) ?_
    rw [List.length_map]
    exact le_of_eq hlen
  · rintro ⟨hnodup, -⟩
    rw [he]
    unfold specEdges
    rw [List.toFinset_card_of_nodup hnodup, List.length_map, hlen]

theorem convert_edge_count_le_lines_witness :
    (⟨{0, 1, 2}, {(0, 1), (1, 2)}⟩ : Graph).edges.card =
      (edgeLines gExampleFixed).length :=
  (convert_edge_count_le_lines gExampleFixed _ (by decide)).2
    ⟨by decide, by decide⟩

/-- C8: `convert_data_into_graph` is deterministic: two calls on the same
input that return graphs return graphs with identical node sets and
identical edge sets. -/
theorem convert_deterministic (data : PyStr) (g1 g2 : Graph)
    (h1 : convert_data_into_graph data = .ok g1)
    (h2 : convert_data_into_graph data = .ok g2) :
    g1.nodes = g2.nodes ∧ g1.edges = g2.edges := by
  rw [h1] at h2
  cases h2
  exact ⟨rfl, rfl⟩

theorem convert_deterministic_witness :
    (⟨{0, 1, 2}, {(0, 1), (1, 2)}⟩ : Graph).nodes =
        (⟨{0, 1, 2}, {(0, 1), (1, 2)}⟩ : Graph).nodes ∧
      (⟨{0, 1, 2}, {(0, 1), (1, 2)}⟩ : Graph).edges =
        (⟨{0, 1, 2}, {(0, 1), (1, 2)}⟩ : Graph).edges :=
  convert_deterministic gExampleFixed _ _ (by decide) (by decide)

/-- C9: on any input with no newline character — the empty string included —
`convert_data_into_graph` succeeds and returns the empty graph: the single
segment the split produces is the last one and is dropped, so not even the
header branch runs. -/
theorem convert_no_newline_empty_graph (data : PyStr) (h : '\n' ∉ data) :
    convert_data_into_graph data = .ok Graph.empty :=
  convert_eq_nil (by rw [splitOn_eq_single_of_not_mem h]; rfl)

theorem convert_no_newline_empty_graph_witness :
    convert_data_into_graph "not a valid header".toList = .ok Graph.empty ∧
      convert_data_into_graph [] = .ok Graph.empty :=
  ⟨convert_no_newline_empty_graph "not a valid header".toList (by decide),
    convert_no_newline_empty_graph [] (by decide)⟩

/-- C10: the weight token is never converted or validated: for any edge
line whose single-space split is exactly three tokens with the first two
accepted by `int()`, the loop body adds the edge read off the first two
tokens, whatever the third token holds. -/
theorem edgeStep_ignores_weight_token (g : Graph) (line u v w : PyStr)
    (a b : Int) (hs : line.splitOn ' ' = [u, v, w])
    (hu : pyInt u = some a) (hv : pyInt v = some b) :
    edgeStep g line = .ok (g.add_edge (a - 1) (b - 1)) := by
  unfold edgeStep
  rw [hs]
  simp only [hu, hv]

theorem edgeStep_ignores_weight_token_witness :
    edgeStep Graph.empty "1 2 NOTANUMBER".toList =
      .ok (Graph.empty.add_edge (1 - 1) (2 - 1)) :=
  edgeStep_ignores_weight_token Graph.empty _ "1".toList "2".toList
    "NOTANUMBER".toList 1 2 (by decide) (by decide) (by decide)
